import Mathlib

/-!
Shallow embedding of the Z-boson regression engine
(`src/python/z-boson/z_boson_gui.py`) and verification of the spec's claims
about it.  Python floats are modelled as real numbers; numpy's elementwise
column arithmetic is modelled row-by-row over lists; numpy's NaN (which
arises only as 0/0 when the deviation spread is zero) is modelled with
`Option ℝ`, `none` standing for NaN, so that the comparison `NaN < 4`
is false exactly as in IEEE semantics.  The scipy solver is an opaque
deterministic function supplied as a parameter, and the unbounded
`while` loops of the source are given explicit fuel; running out of fuel
is reported as the artificial error `PyErr.noFuel`, which no theorem
below depends on.  Plotting and the tkinter shell are presentation-only
and are not modelled.
-/

noncomputable section

namespace ZBoson

open Classical

/-- Module-level constant `GAMMA_EE = 0.08391` (GeV). -/
def GAMMA_EE : ℝ := 0.08391

/-- Module-level constant `H_BAR = 6.582119569e-25` (GeV s). -/
def H_BAR : ℝ := 6.582119569 * (10 : ℝ) ^ (-25 : ℤ)

/-- Module-level constant `M_Z0 = 91.179`, the initial mass guess. -/
def M_Z0 : ℝ := 91.179

/-- Module-level constant `GAMMA_Z0 = 2.510`, the initial width guess. -/
def GAMMA_Z0 : ℝ := 2.510

/-- Module-level constant `CONVERSION_FACTOR = 3.894e5` (nb). -/
def CONVERSION_FACTOR : ℝ := 3.894 * (10 : ℝ) ^ (5 : ℕ)

/-- A row of the working numpy array: in well-formed data,
`[energy, cross section, uncertainty]` (columns 0, 1, 2). -/
abbrev Row : Type := List ℝ

/-- The working dataset: a list of rows, modelling the 2-D numpy array. -/
abbrev ZData : Type := List Row

/-- Python exceptions that can escape the modelled pipeline.
`indexError` models numpy/list `IndexError`; `inputError` is modelled
from the spec (the spec's §7 InputError taxon — the source never raises
it, the constructor exists only so that claims mentioning it are
statable); `noFuel` is the modelling artefact for exhausting the fuel
of an unbounded source loop. -/
inductive PyErr where
  | indexError : PyErr
  | inputError : PyErr
  | noFuel : PyErr
deriving DecidableEq

/-- Mean of a list of reals, as `np.average` (sum divided by length;
the empty-list case, NaN in numpy, is never reached on a NaN-relevant
path in the pipeline and is 0 here). -/
def npAverage (l : List ℝ) : ℝ := l.sum / l.length

/-- Population standard deviation of a list of reals, as `np.std`:
the square root of the mean squared deviation from the mean. -/
def npStd (l : List ℝ) : ℝ :=
  Real.sqrt ((l.map (fun x => (x - npAverage l) ^ 2)).sum / l.length)

/-- Column extraction `data[:, j]`.  `np.array` of an empty list of rows
is one-dimensional, so column slicing raises `IndexError`; on a nonempty
(well-formed) array it is the list of the j-th entries. -/
def npCol (data : ZData) (j : Nat) : Except PyErr (List ℝ) :=
  if data.isEmpty then .error .indexError
  else .ok (data.map (fun r => r.getD j 0))

/-- A Python callable with the call shapes `f(x, a, b)`, `f(x, a, b, c)`
and `f(x, a, b, c, d)` used for the distribution function: the three
fields record what the callable computes at each arity, capturing the
default arguments of the concrete Python function passed in. -/
structure PyFunc where
  call2 : ℝ → ℝ → ℝ → ℝ
  call3 : ℝ → ℝ → ℝ → ℝ → ℝ
  call4 : ℝ → ℝ → ℝ → ℝ → ℝ → ℝ

/-- The Breit-Wigner distribution `cross_section` of the source, with all
five arguments explicit. -/
def cross_section (energy m_z gamma_z gamma_vertex_1 gamma_vertex_2 : ℝ) : ℝ :=
  ((12 * Real.pi) / (m_z ^ 2)) * gamma_vertex_1 * gamma_vertex_2 * CONVERSION_FACTOR *
    (energy ^ 2 / ((energy ^ 2 - m_z ^ 2) ^ 2 + (gamma_z * m_z) ^ 2))

/-- The `cross_section` function as a Python callable: missing trailing
arguments default to `GAMMA_EE`, as in the source's signature. -/
def crossSectionF : PyFunc where
  call2 := fun e a b => cross_section e a b GAMMA_EE GAMMA_EE
  call3 := fun e a b c => cross_section e a b c GAMMA_EE
  call4 := fun e a b c d => cross_section e a b c d

/-- An input line, after Python's `line.split(',')` followed by
`float(entry)` on each field: `hasNan` records whether the raw text
matched the regex pattern dot-star nan dot-star, and each field is
`some v` when `float` parses it to the value `v`, `none` when `float`
raises `ValueError` on it. -/
structure Line where
  hasNan : Bool
  fields : List (Option ℝ)

/-- Parse all fields of a line, failing (as the comprehension
`[float(entry) for entry in line.split(',')]` does) if any single field
fails to parse. -/
def parseFields : List (Option ℝ) → Option (List ℝ)
  | [] => some []
  | none :: _ => none
  | some v :: rest => (parseFields rest).map (fun vs => v :: vs)

/-- Process one line of `read_data`'s inner loop.  `.ok none` means the
line is skipped (the `continue` and the caught `ValueError`), `.ok (some
row)` means the row is appended, and `.error .indexError` models the
uncaught `IndexError` raised by `line[2]` when every field parses as a
float but there are fewer than three fields (only `ValueError` is caught
by the source). -/
def parseLine (ln : Line) : Except PyErr (Option Row) :=
  if ln.hasNan then .ok none
  else
    match parseFields ln.fields with
    | none => .ok none
    | some vals =>
      if vals.length < 3 then .error .indexError
      else if vals.getD 2 0 ≤ 0 ∨ vals.getD 1 0 < 0 ∨ vals.getD 0 0 < 0 then .ok none
      else .ok (some vals)

/-- Process the lines of one successfully opened file in order,
collecting the appended rows; an uncaught exception aborts everything. -/
def readFile : List Line → Except PyErr (List Row)
  | [] => .ok []
  | ln :: rest => do
    match ← parseLine ln with
    | none => readFile rest
    | some row => do
      let rows ← readFile rest
      .ok (row :: rows)

/-- Process the requested files in order.  `none` models a file that
raises `FileNotFoundError` on opening (counted as a failed import, rows
contributed: none); `some lines` a file that opens with those lines.
Returns the concatenated rows and the number of successful imports. -/
def readAll : List (Option (List Line)) → Except PyErr (List Row × Nat)
  | [] => .ok ([], 0)
  | none :: rest => readAll rest
  | some f :: rest => do
    let rows ← readFile f
    let (more, s) ← readAll rest
    .ok (rows ++ more, s + 1)

/-- Comparison key of `output_array.sort(key=lambda l: l[0])`: rows are
ordered by their first entry (every appended row has length at least 3,
so `l[0]` is total on them). -/
def rowLe (a b : Row) : Bool := decide (a.getD 0 0 ≤ b.getD 0 0)

/-- The `read_data` function: merge the rows of all requested files,
discarding invalid lines as `parseLine` does, sort the merged rows
ascending by their first column, and report how many of the requested
files were imported successfully (the message string is modelled by the
pair successes / total). -/
def read_data (files : List (Option (List Line))) : Except PyErr (ZData × Nat × Nat) := do
  let (rows, s) ← readAll files
  .ok (rows.mergeSort rowLe, s, files.length)

/-- The `initial_filter` function: keep the records whose cross section
lies strictly within 5 standard deviations of the mean cross section.
The column read `data[:, 1]` raises `IndexError` on an empty array. -/
def initial_filter (data : ZData) : Except PyErr ZData := do
  let col ← npCol data 1
  let mean := npAverage col
  let sigma := npStd col
  .ok (data.filter (fun entry => decide (|mean - entry.getD 1 0| < 5 * sigma)))

/-- Model prediction for one record, following the branch on
`len(popt)` and `gamma_ee_unknown` that `filter_data` and `chi_square`
both use: two parameters call `func(x, p0, p1)`, three with the
electron-positron width free call `func(x, p0, p1, p2, p2)`, and
otherwise `func(x, p0, p1, p2)`. -/
def predictRow (func : PyFunc) (popt : List ℝ) (geu : Bool) (r : Row) : ℝ :=
  if popt.length = 2 then
    func.call2 (r.getD 0 0) (popt.getD 0 0) (popt.getD 1 0)
  else if popt.length = 3 ∧ geu then
    func.call4 (r.getD 0 0) (popt.getD 0 0) (popt.getD 1 0) (popt.getD 2 0) (popt.getD 2 0)
  else
    func.call3 (r.getD 0 0) (popt.getD 0 0) (popt.getD 1 0) (popt.getD 2 0)

/-- The `deviation_array` of `filter_data`: elementwise absolute value
of observed minus predicted cross section. -/
def deviationArray (data : ZData) (func : PyFunc) (popt : List ℝ) (geu : Bool) : List ℝ :=
  data.map (fun r => |r.getD 1 0 - predictRow func popt geu r|)

/-- Keep test `z_score < 4` of the filter loop, on the NaN-aware z-score:
a NaN z-score (`none`) compares false, as in IEEE arithmetic. -/
def zKeep : Option ℝ → Bool
  | none => false
  | some v => decide (v < 4)

/-- The `filter_data` function: z-scores of the absolute deviations
(centered at their mean, scaled by their standard deviation; when that
standard deviation is zero every deviation equals the mean and numpy's
0/0 yields NaN, modelled as `none`), then one pass over the zipped
z-score/record pairs that retains the records with `z_score < 4` and
collects the rest as outliers.  Caveat: on an empty dataset numpy's
column access raises the same shape IndexError as in `initial_filter`,
while the list model returns `([], [])`; no claim below depends on
filtering an empty dataset. -/
def filter_data (data : ZData) (func : PyFunc) (popt : List ℝ) (geu : Bool := false) :
    ZData × ZData :=
  let dev := deviationArray data func popt geu
  let mean := npAverage dev
  let sigma := npStd dev
  let zs : List (Option ℝ) := dev.map (fun d => if sigma = 0 then none else some ((d - mean) / sigma))
  let pairs := zs.zip data
  ((pairs.filter (fun p => zKeep p.1)).map Prod.snd,
   (pairs.filter (fun p => !zKeep p.1)).map Prod.snd)

/-- The `chi_square` function: sum over the dataset of squared
(observed minus predicted) over squared uncertainty, with the same
parameter-count branching as `filter_data`. -/
def chi_square (data : ZData) (popt : List ℝ) (geu : Bool) (func : PyFunc := crossSectionF) : ℝ :=
  (data.map (fun r => (r.getD 1 0 - predictRow func popt geu r) ^ 2 / (r.getD 2 0) ^ 2)).sum

/-- The reduced chi-square expression of `run_analysis`:
`chi_square(data, popt, gamma_ee_unknown) / (len(data) - len(popt))`.
The subtraction is exact integer arithmetic in the source, modelled in
ℝ; the `len(data) = len(popt)` case divides a numpy float by zero,
which warns and yields an IEEE infinity or NaN rather than raising. -/
def reduced_chi_square (data : ZData) (popt : List ℝ) (geu : Bool) : ℝ :=
  chi_square data popt geu crossSectionF / ((data.length : ℝ) - (popt.length : ℝ))

/-- Output of one `scipy.optimize.curve_fit` call: the optimal parameter
vector and the covariance matrix (`[:2]` of scipy's return value). -/
structure SolverOutput where
  popt : List ℝ
  pcov : List (List ℝ)

/-- An opaque deterministic solver standing for `so.curve_fit`: it
receives the model (a function of the independent variable and the
parameter list), the current dataset (whose columns 0, 1, 2 it reads as
xdata, ydata and sigma), and the initial guess `p0`. -/
abbrev CurveFit : Type := (ℝ → List ℝ → ℝ) → ZData → List ℝ → SolverOutput

/-- Model passed to the solver in the default branch:
`lambda x, a, b: func(x, a, b, GAMMA_EE, GAMMA_EE)`. -/
def standardModel (func : PyFunc) : ℝ → List ℝ → ℝ :=
  fun x p => func.call4 x (p.getD 0 0) (p.getD 1 0) GAMMA_EE GAMMA_EE

/-- Model passed to the solver in the `gamma_ee_unknown` branch:
`lambda x, a, b, c: func(x, a, b, c, c)`. -/
def freeVertexModel (func : PyFunc) : ℝ → List ℝ → ℝ :=
  fun x p => func.call4 x (p.getD 0 0) (p.getD 1 0) (p.getD 2 0) (p.getD 2 0)

/-- Model passed to the solver in the `different_decay` branch:
`lambda x, a, b, c: func(x, a, b, c, GAMMA_EE)`. -/
def newChannelModel (func : PyFunc) : ℝ → List ℝ → ℝ :=
  fun x p => func.call4 x (p.getD 0 0) (p.getD 1 0) (p.getD 2 0) GAMMA_EE

/-- The fit/filter loop shared by the three branches of `fit_to_data`:
fit with the branch's model and fixed initial guess, filter with the
fitted parameters, stop when no outliers were dropped, else continue on
the retained data.  `fuel` bounds the unbounded source loop; `none`
means the fuel ran out. -/
def fitLoop (cf : CurveFit) (model : ℝ → List ℝ → ℝ) (p0 : List ℝ) (func : PyFunc)
    (filtFlag : Bool) : Nat → ZData → Option (ZData × List ℝ × List (List ℝ))
  | 0, _ => none
  | fuel + 1, data =>
    let out := cf model data p0
    match filter_data data func out.popt filtFlag with
    | (newData, []) => some (newData, out.popt, out.pcov)
    | (newData, _ :: _) => fitLoop cf model p0 func filtFlag fuel newData

/-- The `fit_to_data` function: apply the initial filter once, then run
the fit/filter loop of the branch selected by `different_decay` and
`gamma_ee_unknown`.  The `different_decay` branch fits three parameters
with the second vertex width fixed at `GAMMA_EE` and filters with the
default flag; the `gamma_ee_unknown` branch fits three parameters bound
to both vertices and filters with the flag set; the default branch fits
two parameters with both vertex widths fixed at `GAMMA_EE`. -/
def fit_to_data (cf : CurveFit) (data : ZData) (different_decay gamma_ee_unknown : Bool)
    (custom_gamma : ℝ := 0.01) (func : PyFunc := crossSectionF) (fuel : Nat := 0) :
    Except PyErr (ZData × List ℝ × List (List ℝ) × Bool) := do
  let data ← initial_filter data
  if different_decay then
    match fitLoop cf (newChannelModel func) [91.179, 2.510, custom_gamma] func false fuel data with
    | some (d, popt, pcov) => .ok (d, popt, pcov, gamma_ee_unknown)
    | none => .error .noFuel
  else if gamma_ee_unknown then
    match fitLoop cf (freeVertexModel func) [91.179, 2.510, custom_gamma] func true fuel data with
    | some (d, popt, pcov) => .ok (d, popt, pcov, gamma_ee_unknown)
    | none => .error .noFuel
  else
    match fitLoop cf (standardModel func) [91.179, 2.510] func false fuel data with
    | some (d, popt, pcov) => .ok (d, popt, pcov, gamma_ee_unknown)
    | none => .error .noFuel

/-- Numeric values computed by `collect_results` before formatting
(the formatted message itself is presentation and not modelled). -/
structure ResultVals where
  m_z : ℝ
  sigma_m_z : ℝ
  gamma_z : ℝ
  sigma_gamma_z : ℝ
  tau : ℝ
  sigma_tau : ℝ
  chi_squared_red : ℝ

/-- The numeric part of `collect_results`: mass and width with the
square roots of the corresponding covariance diagonal entries
(`pcov[i, i] ** 0.5`, nonnegative for any valid covariance), the
lifetime `H_BAR / gamma_z`, and its propagated uncertainty
`sigma_gamma_z * (tau / gamma_z)`. -/
def collect_results (popt : List ℝ) (pcov : List (List ℝ)) (chi_squared_red : ℝ) : ResultVals :=
  let m_z := popt.getD 0 0
  let sigma_m_z := Real.sqrt ((pcov.getD 0 []).getD 0 0)
  let gamma_z := popt.getD 1 0
  let sigma_gamma_z := Real.sqrt ((pcov.getD 1 []).getD 1 0)
  let tau := H_BAR / gamma_z
  let sigma_tau := sigma_gamma_z * (tau / gamma_z)
  ⟨m_z, sigma_m_z, gamma_z, sigma_gamma_z, tau, sigma_tau, chi_squared_red⟩

/-- The `run_analysis` function: fit, compute the reduced chi-square of
the final filtered data, and collect the numeric results (the plotting
calls are presentation and not modelled).  A `custom_gamma` of `none`
models the Python `None` default, which falls back to `fit_to_data`'s
own default guess of `0.01`. -/
def run_analysis (cf : CurveFit) (data : ZData) (different_decay gamma_ee_unknown : Bool)
    (custom_gamma : Option ℝ := none) (fuel : Nat := 0) : Except PyErr ResultVals := do
  let (d, popt, pcov, geu) ←
    fit_to_data cf data different_decay gamma_ee_unknown (custom_gamma.getD 0.01)
      crossSectionF fuel
  .ok (collect_results popt pcov (reduced_chi_square d popt geu))

/-- Absolute deviation of one record from the model prediction, the
elementwise form of `deviationArray`. -/
def recordDev (func : PyFunc) (popt : List ℝ) (geu : Bool) (r : Row) : ℝ :=
  |r.getD 1 0 - predictRow func popt geu r|

/-- NaN-aware z-score of one record inside a given dataset, the
elementwise form of the `z_scores` array of `filter_data`:  `none`
models the NaN produced by numpy's 0/0 when the deviations' standard
deviation is zero. -/
def recordZScore (data : ZData) (func : PyFunc) (popt : List ℝ) (geu : Bool) (r : Row) :
    Option ℝ :=
  if npStd (deviationArray data func popt geu) = 0 then none
  else
    some ((recordDev func popt geu r - npAverage (deviationArray data func popt geu)) /
      npStd (deviationArray data func popt geu))

/-- Constant-zero Python callable, used to instantiate theorems with
hypotheses at concrete inputs. -/
def func0 : PyFunc where
  call2 := fun _ _ _ => 0
  call3 := fun _ _ _ _ => 0
  call4 := fun _ _ _ _ _ => 0

/-- Constant-one Python callable, used for concrete counterexamples. -/
def func1 : PyFunc where
  call2 := fun _ _ _ => 1
  call3 := fun _ _ _ _ => 1
  call4 := fun _ _ _ _ _ => 1

/-- Solver that echoes the initial guess with an empty covariance;
it satisfies the arity contract of `curve_fit`. -/
def cf0 : CurveFit := fun _ _ p0 => ⟨p0, []⟩

/-- Signed residuals observed − predicted across a dataset.  This and
`claimResidualDropped` transcribe the wording of claim C1 (not the
source); they exist solely to compare the claimed residual pass with
the source's `filter_data`. -/
def specSignedResiduals (data : ZData) (func : PyFunc) (popt : List ℝ) (geu : Bool) :
    List ℝ :=
  data.map (fun r => r.getD 1 0 - predictRow func popt geu r)

/-- Dropped set of the residual pass as claim C1 words it: a record is
dropped exactly when the z-score of its signed residual — centered at
the residuals' mean and scaled by their standard deviation — exceeds
4. -/
def claimResidualDropped (data : ZData) (func : PyFunc) (popt : List ℝ) (geu : Bool) :
    ZData :=
  data.filter (fun r => decide (4 <
    (r.getD 1 0 - predictRow func popt geu r -
        npAverage (specSignedResiduals data func popt geu)) /
      npStd (specSignedResiduals data func popt geu)))

/-- Ordering of rows by independent value (first column), the order the
spec's Dataset invariant refers to. -/
def energyLe (a b : Row) : Prop := a.getD 0 0 ≤ b.getD 0 0

/-- Filtering the zip of a mapped list with the list itself by a test on
the mapped component, then projecting back, is filtering the list by the
composed test. -/
theorem zip_map_filter_snd {α β : Type} (f : α → β) (p : β → Bool) :
    ∀ l : List α,
      (((l.map f).zip l).filter (fun q => p q.1)).map Prod.snd = l.filter (fun a => p (f a))
  | [] => rfl
  | a :: l => by
    simp only [List.map_cons, List.zip_cons_cons, List.filter_cons]
    cases hp : p (f a) <;> simp [zip_map_filter_snd f p l, hp]

/-- Structural characterisation of `filter_data`: the retained records
are exactly the records of the input whose z-score passes the keep test,
and the outliers exactly those whose z-score fails it, each in input
order. -/
theorem filter_data_eq (data : ZData) (func : PyFunc) (popt : List ℝ) (geu : Bool) :
    filter_data data func popt geu =
      (data.filter (fun r => zKeep (recordZScore data func popt geu r)),
       data.filter (fun r => !zKeep (recordZScore data func popt geu r))) := by
  unfold filter_data
  rw [show deviationArray data func popt geu = data.map (recordDev func popt geu) from rfl]
  simp only [List.map_map]
  refine congrArg₂ Prod.mk ?_ ?_
  · exact (zip_map_filter_snd _ _ data).trans rfl
  · exact (zip_map_filter_snd _ (fun z => !zKeep z) data).trans rfl

/-- When `filter_data` drops nothing, it returns its input unchanged. -/
theorem filter_data_dropped_nil {data : ZData} {func : PyFunc} {popt : List ℝ} {geu : Bool}
    (h : (filter_data data func popt geu).2 = []) :
    (filter_data data func popt geu).1 = data := by
  rw [filter_data_eq] at h ⊢
  simp only [List.filter_eq_nil_iff, Bool.not_eq_true'] at h
  refine List.filter_eq_self.mpr ?_
  intro a ha
  have := h a ha
  simpa using this

/-- Mean of a nonempty constant list is the constant. -/
theorem npAverage_const {l : List ℝ} {c : ℝ} (hne : l ≠ []) (h : ∀ x ∈ l, x = c) :
    npAverage l = c := by
  have hrep : l = List.replicate l.length c := List.eq_replicate_length.mpr h
  have hlen : (l.length : ℝ) ≠ 0 := by
    exact_mod_cast (List.length_pos.mpr hne).ne'
  rw [npAverage, hrep]
  simp only [List.sum_replicate, List.length_replicate, smul_eq_mul]
  rw [hrep] at hlen
  simp only [List.length_replicate] at hlen
  field_simp

/-- Standard deviation of a constant list is zero. -/
theorem npStd_const {l : List ℝ} {c : ℝ} (h : ∀ x ∈ l, x = c) : npStd l = 0 := by
  rcases eq_or_ne l [] with rfl | hne
  · simp [npStd, npAverage]
  · have havg := npAverage_const hne h
    have hmap : l.map (fun x => (x - npAverage l) ^ 2) = l.map (fun _ => 0) := by
      refine List.map_congr_left ?_
      intro x hx
      rw [havg, h x hx]
      ring
    rw [npStd, hmap]
    simp

/-- When every record passes the keep test, `filter_data` keeps the
whole dataset and drops nothing. -/
theorem filter_data_all_kept {data : ZData} {func : PyFunc} {popt : List ℝ} {geu : Bool}
    (h : ∀ r ∈ data, zKeep (recordZScore data func popt geu r) = true) :
    filter_data data func popt geu = (data, []) := by
  rw [filter_data_eq]
  refine congrArg₂ Prod.mk ?_ ?_
  · exact List.filter_eq_self.mpr h
  · refine List.filter_eq_nil_iff.mpr ?_
    intro a ha
    simp [h a ha]

/-- When every record fails the keep test, `filter_data` drops the
whole dataset and keeps nothing. -/
theorem filter_data_all_dropped {data : ZData} {func : PyFunc} {popt : List ℝ} {geu : Bool}
    (h : ∀ r ∈ data, zKeep (recordZScore data func popt geu r) = false) :
    filter_data data func popt geu = ([], data) := by
  rw [filter_data_eq]
  refine congrArg₂ Prod.mk ?_ ?_
  · refine List.filter_eq_nil_iff.mpr ?_
    intro a ha
    simp [h a ha]
  · refine List.filter_eq_self.mpr ?_
    intro a ha
    simp [h a ha]

/-- A successful run of the fit/filter loop ends with a dataset and
parameter vector on which the residual pass drops nothing: the loop only
returns after a filtering round with an empty outlier list, and that
round left the dataset unchanged. -/
theorem fitLoop_terminal {cf : CurveFit} {model : ℝ → List ℝ → ℝ} {p0 : List ℝ} {func : PyFunc}
    {filtFlag : Bool} :
    ∀ (fuel : Nat) (data d : ZData) (popt : List ℝ) (pcov : List (List ℝ)),
      fitLoop cf model p0 func filtFlag fuel data = some (d, popt, pcov) →
      (filter_data d func popt filtFlag).2 = []
  | 0, data, d, popt, pcov, h => by simp [fitLoop] at h
  | fuel + 1, data, d, popt, pcov, h => by
    rw [fitLoop] at h
    rcases hfd : filter_data data func (cf model data p0).popt filtFlag with ⟨nd, outl⟩
    rw [hfd] at h
    cases outl with
    | nil =>
      have h2 : (filter_data data func (cf model data p0).popt filtFlag).2 = [] := by
        rw [hfd]
      have h1 : (filter_data data func (cf model data p0).popt filtFlag).1 = data :=
        filter_data_dropped_nil h2
      rw [hfd] at h1
      simp only [Option.some.injEq, Prod.mk.injEq] at h
      obtain ⟨hd, hpopt, _⟩ := h
      subst hd
      subst hpopt
      have h1' : nd = data := h1
      rw [h1']
      exact h2
    | cons a t =>
      exact fitLoop_terminal fuel nd d popt pcov h

/-- C8: on every successful fit, the derived lifetime equals
`H_BAR / width` and its propagated uncertainty equals
`sigma_width * (lifetime / width)`, where `sigma_width` is the square
root of the width's covariance diagonal entry. -/
theorem c8_lifetime_propagation (popt : List ℝ) (pcov : List (List ℝ)) (red : ℝ) :
    (collect_results popt pcov red).gamma_z = popt.getD 1 0 ∧
    (collect_results popt pcov red).tau = H_BAR / (collect_results popt pcov red).gamma_z ∧
    (collect_results popt pcov red).sigma_gamma_z = Real.sqrt ((pcov.getD 1 []).getD 1 0) ∧
    (collect_results popt pcov red).sigma_tau =
      (collect_results popt pcov red).sigma_gamma_z *
        ((collect_results popt pcov red).tau / (collect_results popt pcov red).gamma_z) :=
  ⟨rfl, rfl, rfl, rfl⟩

/-- C4 counterexample: no parameter-independent constant `K` makes the
model evaluator equal `K·Γ₁·Γ₂·(E²/((E²−M²)²+(Γ·M)²))`: the source's
prefactor `12π·CONVERSION_FACTOR/M²` depends on the fitted mass, so
instantiating at `M = 1` and `M = 2` (with the other arguments 1)
forces two different values of `K`. -/
theorem c4_counterexample :
    ¬ ∃ K : ℝ, ∀ energy m_z gamma_z g1 g2 : ℝ,
        cross_section energy m_z gamma_z g1 g2 =
          K * g1 * g2 * (energy ^ 2 / ((energy ^ 2 - m_z ^ 2) ^ 2 + (gamma_z * m_z) ^ 2)) := by
  rintro ⟨K, hK⟩
  have h1 := hK 1 1 1 1 1
  have h2 := hK 1 2 1 1 1
  rw [cross_section] at h1 h2
  rw [CONVERSION_FACTOR] at h1 h2
  norm_num at h1 h2
  nlinarith [Real.pi_pos, h1, h2]

/-- C4 amended: the model evaluator returns
`(K / M²)·Γ₁·Γ₂·(E²/((E²−M²)²+(Γ·M)²))` where `K = 12π·CONVERSION_FACTOR`
is fixed but is divided by the square of the fitted mass, so the full
prefactor depends on the fitted parameters. -/
theorem c4_mass_dependent_prefactor :
    ∃ K : ℝ, K = 12 * Real.pi * CONVERSION_FACTOR ∧
      ∀ energy m_z gamma_z g1 g2 : ℝ,
        cross_section energy m_z gamma_z g1 g2 =
          K / m_z ^ 2 * g1 * g2 *
            (energy ^ 2 / ((energy ^ 2 - m_z ^ 2) ^ 2 + (gamma_z * m_z) ^ 2)) := by
  refine ⟨12 * Real.pi * CONVERSION_FACTOR, rfl, ?_⟩
  intro energy m_z gamma_z g1 g2
  rw [cross_section]
  ring

/-- C2 amended: on a merged dataset with zero valid records the analysis
does not signal an InputError; it aborts with the IndexError raised by
the column access of the initial filter (the empty array is
one-dimensional), before the solver is ever invoked — the result is the
same for every solver. -/
theorem c2_empty_dataset_index_error (cf : CurveFit) (dd geu : Bool) (g : Option ℝ)
    (fuel : Nat) :
    run_analysis cf [] dd geu g fuel = .error .indexError := by
  simp [run_analysis, fit_to_data, initial_filter, npCol, Bind.bind, Except.bind]

/-- C2 counterexample: at the concrete empty dataset the pipeline does
not signal the InputError the claim requires: it fails with an
IndexError instead. -/
theorem c2_counterexample :
    run_analysis cf0 [] false false none 1 ≠ .error .inputError := by
  simp [run_analysis, fit_to_data, initial_filter, npCol, Bind.bind, Except.bind]

/-- C10: on a non-empty dataset whose records all deviate from the model
prediction by the same absolute amount, the scale of the residual pass
is zero, every z-score is the NaN that numpy's 0/0 produces (modelled as
`none`), and the pass classifies every record as an outlier, returning
an empty retained dataset. -/
theorem c10_equal_deviations_drop_all (data : ZData) (func : PyFunc) (popt : List ℝ)
    (geu : Bool) (c : ℝ) (_hne : data ≠ [])
    (hdev : ∀ r ∈ data, recordDev func popt geu r = c) :
    npStd (deviationArray data func popt geu) = 0 ∧
    (∀ r ∈ data, recordZScore data func popt geu r = none) ∧
    filter_data data func popt geu = ([], data) := by
  have hstd : npStd (deviationArray data func popt geu) = 0 := by
    refine npStd_const (c := c) ?_
    intro x hx
    rw [deviationArray] at hx
    obtain ⟨r, hr, rfl⟩ := List.mem_map.mp hx
    exact hdev r hr
  have hz : ∀ r ∈ data, recordZScore data func popt geu r = none := by
    intro r _
    unfold recordZScore
    rw [if_pos hstd]
  refine ⟨hstd, hz, ?_⟩
  refine filter_data_all_dropped ?_
  intro r hr
  rw [hz r hr]
  rfl

/-- C10 witness: a single record at cross section 5 under the constant
zero model deviates by 5, and the pass drops it. -/
theorem c10_witness :
    (([[(0:ℝ), 5, 1]] : ZData) ≠ [] ∧
      ∀ r ∈ ([[(0:ℝ), 5, 1]] : ZData), recordDev func0 [1, 1] false r = 5) ∧
    (npStd (deviationArray [[(0:ℝ), 5, 1]] func0 [1, 1] false) = 0 ∧
      (∀ r ∈ ([[(0:ℝ), 5, 1]] : ZData),
        recordZScore [[(0:ℝ), 5, 1]] func0 [1, 1] false r = none) ∧
      filter_data [[(0:ℝ), 5, 1]] func0 [1, 1] false = ([], [[(0:ℝ), 5, 1]])) := by
  have hne : ([[(0:ℝ), 5, 1]] : ZData) ≠ [] := by simp
  have hdev : ∀ r ∈ ([[(0:ℝ), 5, 1]] : ZData), recordDev func0 [1, 1] false r = 5 := by
    intro r hr
    simp only [List.mem_singleton] at hr
    subst hr
    simp [recordDev, predictRow, func0]
  exact ⟨⟨hne, hdev⟩, c10_equal_deviations_drop_all _ func0 _ false 5 hne hdev⟩

/-- C6 amended: the reduced chi-square of the source is the chi-square
sum divided by `N - P`; the sum itself is always nonnegative, so the
quotient is nonnegative whenever `N > P`, but no error is signalled when
`N ≤ P`: for `N < P` with a positive chi-square the source returns a
negative reduced chi-square (and for `N = P` numpy divides by zero and
yields an IEEE infinity or NaN rather than raising). -/
theorem c6_reduced_chi_square_sign (data : ZData) (popt : List ℝ) (geu : Bool) :
    0 ≤ chi_square data popt geu crossSectionF ∧
    (popt.length < data.length → 0 ≤ reduced_chi_square data popt geu) ∧
    (data.length < popt.length → 0 < chi_square data popt geu crossSectionF →
      reduced_chi_square data popt geu < 0) := by
  have hchi : 0 ≤ chi_square data popt geu crossSectionF := by
    refine List.sum_nonneg ?_
    intro x hx
    obtain ⟨r, _, rfl⟩ := List.mem_map.mp hx
    positivity
  refine ⟨hchi, ?_, ?_⟩
  · intro hlt
    refine div_nonneg hchi ?_
    have : (popt.length : ℝ) < (data.length : ℝ) := by exact_mod_cast hlt
    linarith
  · intro hlt hpos
    refine div_neg_of_pos_of_neg hpos ?_
    have : (data.length : ℝ) < (popt.length : ℝ) := by exact_mod_cast hlt
    linarith

/-- C6 witness: with three records and two parameters the reduced
chi-square is nonnegative; with one record, two parameters and positive
chi-square it is negative. -/
theorem c6_witness :
    (([(91.179:ℝ), 2.510] : List ℝ).length < ([[(0:ℝ), 1, 1], [1, 1, 1], [2, 1, 1]] : ZData).length ∧
      0 ≤ reduced_chi_square [[(0:ℝ), 1, 1], [1, 1, 1], [2, 1, 1]] [91.179, 2.510] false) ∧
    (([[(0:ℝ), 1, 1]] : ZData).length < ([(91.179:ℝ), 2.510] : List ℝ).length ∧
      0 < chi_square [[(0:ℝ), 1, 1]] [91.179, 2.510] false crossSectionF ∧
      reduced_chi_square [[(0:ℝ), 1, 1]] [91.179, 2.510] false < 0) := by
  have hlen1 : ([(91.179:ℝ), 2.510] : List ℝ).length <
      ([[(0:ℝ), 1, 1], [1, 1, 1], [2, 1, 1]] : ZData).length := by simp
  have hlen2 : ([[(0:ℝ), 1, 1]] : ZData).length < ([(91.179:ℝ), 2.510] : List ℝ).length := by
    simp
  have hchi : chi_square [[(0:ℝ), 1, 1]] [91.179, 2.510] false crossSectionF = 1 := by
    simp [chi_square, predictRow, crossSectionF, cross_section]
  have hpos : 0 < chi_square [[(0:ℝ), 1, 1]] [91.179, 2.510] false crossSectionF := by
    rw [hchi]; norm_num
  exact ⟨⟨hlen1, (c6_reduced_chi_square_sign [[(0:ℝ), 1, 1], [1, 1, 1], [2, 1, 1]]
      [91.179, 2.510] false).2.1 hlen1⟩,
    ⟨hlen2, hpos, (c6_reduced_chi_square_sign [[(0:ℝ), 1, 1]]
      [91.179, 2.510] false).2.2 hlen2 hpos⟩⟩

/-- C6 counterexample: with one record and two fitted parameters the
source's reduced chi-square is negative (and no error is raised),
refuting both that it is always nonnegative and that the `N ≤ P` case
fails with a NumericalError. -/
theorem c6_counterexample :
    reduced_chi_square [[(0:ℝ), 1, 1]] [91.179, 2.510] false < 0 := by
  have hchi : chi_square [[(0:ℝ), 1, 1]] [91.179, 2.510] false crossSectionF = 1 := by
    simp [chi_square, predictRow, crossSectionF, cross_section]
  rw [reduced_chi_square, hchi]
  norm_num

/-- C1 counterexample: two records whose signed residuals are +1 and −1
under the constant-one model.  Their absolute deviations are both 1, so
the source's scale (the standard deviation of the absolute deviations)
is zero, the z-scores are NaN, and `filter_data` drops both records;
the claim's z-scores of the signed residuals are +1 and −1, so the
claimed pass drops none.  The dropped lists differ. -/
theorem c1_counterexample :
    (filter_data [[(0:ℝ), 2, 1], [1, 0, 1]] func1 [1, 1] false).2 ≠
      claimResidualDropped [[(0:ℝ), 2, 1], [1, 0, 1]] func1 [1, 1] false := by
  have h2 : |(1:ℝ)| = 1 := abs_of_nonneg (by norm_num)
  have h3 : |(-1:ℝ)| = 1 := by rw [abs_neg]; exact h2
  have hdev : ∀ r ∈ ([[(0:ℝ), 2, 1], [1, 0, 1]] : ZData),
      recordDev func1 [1, 1] false r = 1 := by
    intro r hr
    simp only [List.mem_cons, List.mem_singleton, List.not_mem_nil, or_false] at hr
    rcases hr with rfl | rfl
    · simp [recordDev, predictRow, func1]
      norm_num [h2]
    · simp [recordDev, predictRow, func1]
  have hstd : npStd (deviationArray [[(0:ℝ), 2, 1], [1, 0, 1]] func1 [1, 1] false) = 0 := by
    refine npStd_const (c := 1) ?_
    intro x hx
    rw [deviationArray] at hx
    obtain ⟨r, hr, rfl⟩ := List.mem_map.mp hx
    exact hdev r hr
  have hcode : filter_data [[(0:ℝ), 2, 1], [1, 0, 1]] func1 [1, 1] false =
      ([], [[(0:ℝ), 2, 1], [1, 0, 1]]) := by
    refine filter_data_all_dropped ?_
    intro r hr
    unfold recordZScore
    rw [if_pos hstd]
    rfl
  have hres : specSignedResiduals [[(0:ℝ), 2, 1], [1, 0, 1]] func1 [1, 1] false = [1, -1] := by
    simp [specSignedResiduals, predictRow, func1]
    norm_num
  have havg : npAverage [(1:ℝ), -1] = 0 := by
    simp [npAverage]
  have hstd1 : npStd [(1:ℝ), -1] = 1 := by
    simp only [npStd, npAverage, List.map_cons, List.map_nil, List.sum_cons, List.sum_nil,
      List.length_cons, List.length_nil]
    norm_num [Real.sqrt_eq_one]
  have hclaim : claimResidualDropped [[(0:ℝ), 2, 1], [1, 0, 1]] func1 [1, 1] false = [] := by
    unfold claimResidualDropped
    rw [hres, havg, hstd1]
    simp [List.filter, predictRow, func1]
    norm_num
  rw [hcode, hclaim]
  simp

/-- C1 amended: the residual pass partitions the dataset by the z-scores
of the ABSOLUTE deviations |observed − predicted|, centered at their
mean and scaled by their standard deviation; a record is retained
exactly when that scale is nonzero and its z-score is strictly below 4
(so a record at z-score exactly 4 is dropped, and when the scale is
zero the z-scores are NaN and every record is dropped). -/
theorem c1_residual_pass (data : ZData) (func : PyFunc) (popt : List ℝ) (geu : Bool) :
    (filter_data data func popt geu).1 =
      data.filter (fun r => zKeep (recordZScore data func popt geu r)) ∧
    (filter_data data func popt geu).2 =
      data.filter (fun r => !zKeep (recordZScore data func popt geu r)) ∧
    (∀ r : Row,
      zKeep (recordZScore data func popt geu r) = true ↔
        npStd (deviationArray data func popt geu) ≠ 0 ∧
          (recordDev func popt geu r - npAverage (deviationArray data func popt geu)) /
              npStd (deviationArray data func popt geu) < 4) := by
  refine ⟨?_, ?_, ?_⟩
  · rw [filter_data_eq]
  · rw [filter_data_eq]
  · intro r
    unfold recordZScore
    by_cases hs : npStd (deviationArray data func popt geu) = 0
    · rw [if_pos hs]
      simp [zKeep, hs]
    · rw [if_neg hs]
      simp [zKeep, hs]

/-- A terminating fit/filter loop reaches a fixed point of the residual
pass: filtering the returned dataset with the returned parameters keeps
everything and drops nothing. -/
theorem fitLoop_fix {cf : CurveFit} {model : ℝ → List ℝ → ℝ} {p0 : List ℝ} {func : PyFunc}
    {filtFlag : Bool} {fuel : Nat} {data d : ZData} {popt : List ℝ} {pcov : List (List ℝ)}
    (h : fitLoop cf model p0 func filtFlag fuel data = some (d, popt, pcov)) :
    filter_data d func popt filtFlag = (d, []) := by
  have h2 := fitLoop_terminal fuel data d popt pcov h
  have h1 := filter_data_dropped_nil h2
  exact Prod.ext h1 h2

/-- C7: when `fit_to_data` terminates (its last residual pass dropped no
records), re-running the residual pass on the returned filtered dataset
with the returned parameters — with the same filter flag the terminating
branch used — retains every record and drops zero additional ones. -/
theorem c7_residual_pass_idempotent (cf : CurveFit) (data : ZData) (dd geu : Bool) (g : ℝ)
    (func : PyFunc) (fuel : Nat) (d : ZData) (popt : List ℝ) (pcov : List (List ℝ))
    (geuOut : Bool)
    (h : fit_to_data cf data dd geu g func fuel = .ok (d, popt, pcov, geuOut)) :
    filter_data d func popt (cond dd false geu) = (d, []) := by
  rw [fit_to_data] at h
  rcases hif : initial_filter data with e | d0
  · rw [hif] at h
    simp [Bind.bind, Except.bind] at h
  · rw [hif] at h
    simp only [Bind.bind, Except.bind] at h
    cases dd
    · cases geu
      · simp only [Bool.false_eq_true, if_false] at h
        rcases hfl : fitLoop cf (standardModel func) [91.179, 2.510] func false fuel d0 with
          _ | ⟨d', popt', pcov'⟩
        · rw [hfl] at h
          simp at h
        · rw [hfl] at h
          simp only [Except.ok.injEq, Prod.mk.injEq] at h
          obtain ⟨hd, hpopt, _, _⟩ := h
          subst hd
          subst hpopt
          exact fitLoop_fix hfl
      · simp only [Bool.false_eq_true, if_false, if_true] at h
        rcases hfl : fitLoop cf (freeVertexModel func) [91.179, 2.510, g] func true fuel d0 with
          _ | ⟨d', popt', pcov'⟩
        · rw [hfl] at h
          simp at h
        · rw [hfl] at h
          simp only [Except.ok.injEq, Prod.mk.injEq] at h
          obtain ⟨hd, hpopt, _, _⟩ := h
          subst hd
          subst hpopt
          exact fitLoop_fix hfl
    · simp only [if_true] at h
      rcases hfl : fitLoop cf (newChannelModel func) [91.179, 2.510, g] func false fuel d0 with
        _ | ⟨d', popt', pcov'⟩
      · rw [hfl] at h
        simp at h
      · rw [hfl] at h
        simp only [Except.ok.injEq, Prod.mk.injEq] at h
        obtain ⟨hd, hpopt, _, _⟩ := h
        subst hd
        subst hpopt
        exact fitLoop_fix hfl

/-- C7 witness: a concrete standard-variant run that terminates in one
round (deviations 0 and 2, z-scores −1 and 1, no outliers), after which
re-running the residual pass drops nothing. -/
theorem c7_witness :
    fit_to_data cf0 [[(0:ℝ), 0, 1], [1, 2, 1]] false false 0.01 func0 1 =
      .ok ([[(0:ℝ), 0, 1], [1, 2, 1]], [91.179, 2.510], [], false) ∧
    filter_data [[(0:ℝ), 0, 1], [1, 2, 1]] func0 [91.179, 2.510] false =
      ([[(0:ℝ), 0, 1], [1, 2, 1]], []) := by
  have habs2 : |(2:ℝ)| = 2 := abs_of_nonneg (by norm_num)
  have hif : initial_filter [[(0:ℝ), 0, 1], [1, 2, 1]] = .ok [[(0:ℝ), 0, 1], [1, 2, 1]] := by
    simp [initial_filter, npCol, Bind.bind, Except.bind, npAverage, npStd]
    norm_num
  have hdev : deviationArray [[(0:ℝ), 0, 1], [1, 2, 1]] func0 [91.179, 2.510] false =
      [0, 2] := by
    simp [deviationArray, predictRow, func0, habs2]
  have hsig : npStd [(0:ℝ), 2] = 1 := by
    simp only [npStd, npAverage, List.map_cons, List.map_nil, List.sum_cons, List.sum_nil,
      List.length_cons, List.length_nil]
    norm_num [Real.sqrt_eq_one]
  have hmu : npAverage [(0:ℝ), 2] = 1 := by
    simp [npAverage]
  have hz : ∀ r ∈ ([[(0:ℝ), 0, 1], [1, 2, 1]] : ZData),
      zKeep (recordZScore [[(0:ℝ), 0, 1], [1, 2, 1]] func0 [91.179, 2.510] false r) = true := by
    intro r hr
    unfold recordZScore
    rw [hdev, hsig, hmu]
    rw [if_neg (by norm_num)]
    simp only [List.mem_cons, List.mem_singleton, List.not_mem_nil, or_false] at hr
    rcases hr with rfl | rfl
    · simp [zKeep, recordDev, predictRow, func0]
      norm_num
    · simp [zKeep, recordDev, predictRow, func0, habs2]
      norm_num
  have hfd : filter_data [[(0:ℝ), 0, 1], [1, 2, 1]] func0 [91.179, 2.510] false =
      ([[(0:ℝ), 0, 1], [1, 2, 1]], []) := filter_data_all_kept hz
  have hloop : fitLoop cf0 (standardModel func0) [91.179, 2.510] func0 false 1
      [[(0:ℝ), 0, 1], [1, 2, 1]] =
      some ([[(0:ℝ), 0, 1], [1, 2, 1]], [91.179, 2.510], []) := by
    rw [show (1 : ℕ) = 0 + 1 from rfl, fitLoop]
    simp only [cf0]
    rw [hfd]
  have hfit : fit_to_data cf0 [[(0:ℝ), 0, 1], [1, 2, 1]] false false 0.01 func0 1 =
      .ok ([[(0:ℝ), 0, 1], [1, 2, 1]], [91.179, 2.510], [], false) := by
    rw [fit_to_data, hif]
    simp only [Bind.bind, Except.bind, Bool.false_eq_true, if_false]
    rw [hloop]
  refine ⟨hfit, ?_⟩
  exact c7_residual_pass_idempotent cf0 [[(0:ℝ), 0, 1], [1, 2, 1]] false false 0.01 func0 1
    [[(0:ℝ), 0, 1], [1, 2, 1]] [91.179, 2.510] [] false hfit

/-- Under the constant-zero callable every prediction is zero. -/
theorem predictRow_func0 (popt : List ℝ) (geu : Bool) (r : Row) :
    predictRow func0 popt geu r = 0 := by
  unfold predictRow
  split
  · rfl
  · split <;> rfl

/-- Mean of the concrete deviation list `[0, 2]`. -/
theorem npAverage_02 : npAverage [(0:ℝ), 2] = 1 := by
  simp [npAverage]

/-- Standard deviation of the concrete deviation list `[0, 2]`. -/
theorem npStd_02 : npStd [(0:ℝ), 2] = 1 := by
  simp only [npStd, npAverage, List.map_cons, List.map_nil, List.sum_cons, List.sum_nil,
    List.length_cons, List.length_nil]
  norm_num [Real.sqrt_eq_one]

/-- On the two-record dataset with cross sections 0 and 2, the residual
pass under the constant-zero callable keeps both records, whatever the
parameter vector and flag. -/
theorem filter_data_D02 (popt : List ℝ) (geu : Bool) :
    filter_data [[(0:ℝ), 0, 1], [1, 2, 1]] func0 popt geu =
      ([[(0:ℝ), 0, 1], [1, 2, 1]], []) := by
  have habs2 : |(2:ℝ)| = 2 := abs_of_nonneg (by norm_num)
  have hdev : deviationArray [[(0:ℝ), 0, 1], [1, 2, 1]] func0 popt geu = [0, 2] := by
    simp [deviationArray, predictRow_func0, habs2]
  refine filter_data_all_kept ?_
  intro r hr
  unfold recordZScore
  rw [hdev, npStd_02, npAverage_02]
  rw [if_neg (by norm_num)]
  simp only [List.mem_cons, List.mem_singleton, List.not_mem_nil, or_false] at hr
  rcases hr with rfl | rfl
  · simp [zKeep, recordDev, predictRow_func0]
    norm_num
  · simp [zKeep, recordDev, predictRow_func0, habs2]
    norm_num

/-- One-round termination of the fit/filter loop on the concrete
two-record dataset, for any model and initial guess, with the echo
solver. -/
theorem fitLoop_eval_D02 (model : ℝ → List ℝ → ℝ) (p0 : List ℝ) (filtFlag : Bool) :
    fitLoop cf0 model p0 func0 filtFlag 1 [[(0:ℝ), 0, 1], [1, 2, 1]] =
      some ([[(0:ℝ), 0, 1], [1, 2, 1]], p0, []) := by
  rw [show (1 : ℕ) = 0 + 1 from rfl, fitLoop]
  simp only [cf0]
  rw [filter_data_D02]

/-- The initial filter keeps both records of the concrete two-record
dataset. -/
theorem initial_filter_D02 :
    initial_filter [[(0:ℝ), 0, 1], [1, 2, 1]] = .ok [[(0:ℝ), 0, 1], [1, 2, 1]] := by
  simp [initial_filter, npCol, Bind.bind, Except.bind, npAverage, npStd]
  norm_num

/-- Concrete standard-variant run used to instantiate hypotheses. -/
theorem fit_eval_standard :
    fit_to_data cf0 [[(0:ℝ), 0, 1], [1, 2, 1]] false false 0.01 func0 1 =
      .ok ([[(0:ℝ), 0, 1], [1, 2, 1]], [91.179, 2.510], [], false) := by
  rw [fit_to_data, initial_filter_D02]
  simp only [Bind.bind, Except.bind, Bool.false_eq_true, if_false]
  rw [fitLoop_eval_D02]

/-- Concrete free-vertex-width run used to instantiate hypotheses. -/
theorem fit_eval_free :
    fit_to_data cf0 [[(0:ℝ), 0, 1], [1, 2, 1]] false true 0.01 func0 1 =
      .ok ([[(0:ℝ), 0, 1], [1, 2, 1]], [91.179, 2.510, 0.01], [], true) := by
  rw [fit_to_data, initial_filter_D02]
  simp only [Bind.bind, Except.bind, Bool.false_eq_true, if_false, if_true]
  rw [fitLoop_eval_D02]

/-- Concrete new-channel run used to instantiate hypotheses. -/
theorem fit_eval_new :
    fit_to_data cf0 [[(0:ℝ), 0, 1], [1, 2, 1]] true false 0.01 func0 1 =
      .ok ([[(0:ℝ), 0, 1], [1, 2, 1]], [91.179, 2.510, 0.01], [], false) := by
  rw [fit_to_data, initial_filter_D02]
  simp only [Bind.bind, Except.bind, if_true]
  rw [fitLoop_eval_D02]

/-- Parameter-vector length is preserved through the fit/filter loop:
whatever round produced the returned parameters, the solver was called
with the branch's fixed initial guess, so the arity contract gives the
guess's length. -/
theorem fitLoop_popt_length {cf : CurveFit} {model : ℝ → List ℝ → ℝ} {p0 : List ℝ}
    {func : PyFunc} {filtFlag : Bool}
    (hlen : ∀ d, (cf model d p0).popt.length = p0.length) :
    ∀ (fuel : Nat) (data d : ZData) (popt : List ℝ) (pcov : List (List ℝ)),
      fitLoop cf model p0 func filtFlag fuel data = some (d, popt, pcov) →
      popt.length = p0.length
  | 0, data, d, popt, pcov, h => by simp [fitLoop] at h
  | fuel + 1, data, d, popt, pcov, h => by
    rw [fitLoop] at h
    rcases hfd : filter_data data func (cf model data p0).popt filtFlag with ⟨nd, outl⟩
    rw [hfd] at h
    cases outl with
    | nil =>
      simp only [Option.some.injEq, Prod.mk.injEq] at h
      obtain ⟨_, hpopt, _⟩ := h
      rw [← hpopt]
      exact hlen data
    | cons a t =>
      exact fitLoop_popt_length hlen fuel nd d popt pcov h

/-- With a solver that honours the arity contract (`popt` as long as the
guess `p0`), a successful `fit_to_data` returns three parameters on the
new-channel branch, three on the free-vertex branch and two on the
standard branch. -/
theorem fit_to_data_popt_length {cf : CurveFit}
    (hlen : ∀ model data p0, ((cf model data p0).popt).length = p0.length)
    {data : ZData} {dd geu : Bool} {g : ℝ} {func : PyFunc} {fuel : Nat} {d : ZData}
    {popt : List ℝ} {pcov : List (List ℝ)} {geuOut : Bool}
    (h : fit_to_data cf data dd geu g func fuel = .ok (d, popt, pcov, geuOut)) :
    popt.length = cond dd 3 (cond geu 3 2) := by
  rw [fit_to_data] at h
  rcases hif : initial_filter data with e | d0
  · rw [hif] at h
    simp [Bind.bind, Except.bind] at h
  · rw [hif] at h
    simp only [Bind.bind, Except.bind] at h
    cases dd
    · cases geu
      · simp only [Bool.false_eq_true, if_false] at h
        rcases hfl : fitLoop cf (standardModel func) [91.179, 2.510] func false fuel d0 with
          _ | ⟨d', popt', pcov'⟩
        · rw [hfl] at h
          simp at h
        · rw [hfl] at h
          simp only [Except.ok.injEq, Prod.mk.injEq] at h
          obtain ⟨_, hpopt, _, _⟩ := h
          rw [← hpopt]
          exact fitLoop_popt_length (fun dx => hlen _ dx _) fuel d0 d' popt' pcov' hfl
      · simp only [Bool.false_eq_true, if_false, if_true] at h
        rcases hfl : fitLoop cf (freeVertexModel func) [91.179, 2.510, g] func true fuel d0 with
          _ | ⟨d', popt', pcov'⟩
        · rw [hfl] at h
          simp at h
        · rw [hfl] at h
          simp only [Except.ok.injEq, Prod.mk.injEq] at h
          obtain ⟨_, hpopt, _, _⟩ := h
          rw [← hpopt]
          exact fitLoop_popt_length (fun dx => hlen _ dx _) fuel d0 d' popt' pcov' hfl
    · simp only [if_true] at h
      rcases hfl : fitLoop cf (newChannelModel func) [91.179, 2.510, g] func false fuel d0 with
        _ | ⟨d', popt', pcov'⟩
      · rw [hfl] at h
        simp at h
      · rw [hfl] at h
        simp only [Except.ok.injEq, Prod.mk.injEq] at h
        obtain ⟨_, hpopt, _, _⟩ := h
        rw [← hpopt]
        exact fitLoop_popt_length (fun dx => hlen _ dx _) fuel d0 d' popt' pcov' hfl

/-- C5: with a solver honouring the arity contract, a successful
standard-variant fit returns exactly 2 parameters, and the free-vertex
and new-channel variants exactly 3; the standard branch binds both
vertex widths of the model to the fixed constant `GAMMA_EE`, the
free-vertex branch binds both to the third free parameter, and the
new-channel branch binds the first vertex width to the third free
parameter and the second to `GAMMA_EE`. -/
theorem c5_variant_parameter_counts (cf : CurveFit)
    (hlen : ∀ model data p0, ((cf model data p0).popt).length = p0.length)
    (func : PyFunc) (dataS dataF dataN : ZData) (gS gF gN : ℝ) (fuelS fuelF fuelN : Nat)
    (rS rF rN : ZData × List ℝ × List (List ℝ) × Bool)
    (hS : fit_to_data cf dataS false false gS func fuelS = .ok rS)
    (hF : fit_to_data cf dataF false true gF func fuelF = .ok rF)
    (hN : fit_to_data cf dataN true false gN func fuelN = .ok rN) :
    rS.2.1.length = 2 ∧ rF.2.1.length = 3 ∧ rN.2.1.length = 3 ∧
    (∀ x a b, standardModel crossSectionF x [a, b] =
      cross_section x a b GAMMA_EE GAMMA_EE) ∧
    (∀ x a b c, freeVertexModel crossSectionF x [a, b, c] = cross_section x a b c c) ∧
    (∀ x a b c, newChannelModel crossSectionF x [a, b, c] =
      cross_section x a b c GAMMA_EE) := by
  obtain ⟨dS, poptS, pcovS, geuS⟩ := rS
  obtain ⟨dF, poptF, pcovF, geuF⟩ := rF
  obtain ⟨dN, poptN, pcovN, geuN⟩ := rN
  refine ⟨fit_to_data_popt_length hlen hS, fit_to_data_popt_length hlen hF,
    fit_to_data_popt_length hlen hN, ?_, ?_, ?_⟩
  · intro x a b
    rfl
  · intro x a b c
    rfl
  · intro x a b c
    rfl

/-- C5 witness: the echo solver satisfies the arity contract, and the
three concrete runs terminate with parameter vectors of lengths 2, 3
and 3. -/
theorem c5_witness :
    (∀ model data p0, ((cf0 model data p0).popt).length = p0.length) ∧
    (([[(0:ℝ), 0, 1], [1, 2, 1]], ([91.179, 2.510] : List ℝ), ([] : List (List ℝ)),
        false).2.1.length = 2 ∧
      ([[(0:ℝ), 0, 1], [1, 2, 1]], ([91.179, 2.510, 0.01] : List ℝ), ([] : List (List ℝ)),
        true).2.1.length = 3 ∧
      ([[(0:ℝ), 0, 1], [1, 2, 1]], ([91.179, 2.510, 0.01] : List ℝ), ([] : List (List ℝ)),
        false).2.1.length = 3 ∧
      (∀ x a b, standardModel crossSectionF x [a, b] =
        cross_section x a b GAMMA_EE GAMMA_EE) ∧
      (∀ x a b c, freeVertexModel crossSectionF x [a, b, c] = cross_section x a b c c) ∧
      (∀ x a b c, newChannelModel crossSectionF x [a, b, c] =
        cross_section x a b c GAMMA_EE)) := by
  have hlen : ∀ model data p0, ((cf0 model data p0).popt).length = p0.length :=
    fun _ _ _ => rfl
  exact ⟨hlen,
    c5_variant_parameter_counts cf0 hlen func0 [[(0:ℝ), 0, 1], [1, 2, 1]]
      [[(0:ℝ), 0, 1], [1, 2, 1]] [[(0:ℝ), 0, 1], [1, 2, 1]] 0.01 0.01 0.01 1 1 1
      _ _ _ fit_eval_standard fit_eval_free fit_eval_new⟩

/-- The merge sort used by ingestion produces a dataset sorted by
independent value. -/
theorem sorted_mergeSort_rowLe (l : List Row) : (l.mergeSort rowLe).Sorted energyLe := by
  have htrans : ∀ a b c : Row, rowLe a b → rowLe b c → rowLe a c := by
    intro a b c hab hbc
    simp only [rowLe, decide_eq_true_eq] at hab hbc ⊢
    exact le_trans hab hbc
  have htotal : ∀ a b : Row, rowLe a b || rowLe b a := by
    intro a b
    simp only [rowLe, Bool.or_eq_true, decide_eq_true_eq]
    exact le_total _ _
  have h := List.sorted_mergeSort htrans htotal l
  exact h.imp (fun hab => by simpa [rowLe, energyLe] using hab)

/-- C9: ingestion sorts the merged rows ascending by independent value;
the global pass returns an order-preserving subsequence of its input,
and the residual pass returns an order-preserving subsequence of its
input, so both preserve sortedness. -/
theorem c9_sorted_pipeline
    (files : List (Option (List Line))) (rows : ZData) (s t : Nat)
    (h1 : read_data files = .ok (rows, s, t))
    (dI oI : ZData) (h2 : initial_filter dI = .ok oI) (hs2 : dI.Sorted energyLe)
    (dR : ZData) (func : PyFunc) (popt : List ℝ) (geu : Bool)
    (hs3 : dR.Sorted energyLe) :
    rows.Sorted energyLe ∧
    oI.Sublist dI ∧ oI.Sorted energyLe ∧
    (filter_data dR func popt geu).1.Sublist dR ∧
    (filter_data dR func popt geu).1.Sorted energyLe := by
  have hrows : rows.Sorted energyLe := by
    rw [read_data] at h1
    rcases hra : readAll files with e | ⟨rows0, s0⟩
    · rw [hra] at h1
      simp [Bind.bind, Except.bind] at h1
    · rw [hra] at h1
      simp only [Bind.bind, Except.bind, Except.ok.injEq, Prod.mk.injEq] at h1
      obtain ⟨hr, _, _⟩ := h1
      rw [← hr]
      exact sorted_mergeSort_rowLe rows0
  have hoIsub : oI.Sublist dI := by
    rw [initial_filter] at h2
    rcases hcol : npCol dI 1 with e | col
    · rw [hcol] at h2
      simp [Bind.bind, Except.bind] at h2
    · rw [hcol] at h2
      simp only [Bind.bind, Except.bind, Except.ok.injEq] at h2
      rw [← h2]
      exact List.filter_sublist dI
  have hfd1 : (filter_data dR func popt geu).1.Sublist dR := by
    rw [filter_data_eq]
    exact List.filter_sublist dR
  exact ⟨hrows, hoIsub, hs2.sublist hoIsub, hfd1, hs3.sublist hfd1⟩

/-- C9 witness: a missing file yields an (empty, trivially sorted)
merged dataset, and on a concrete sorted two-record dataset both filters
return sorted subsequences. -/
theorem c9_witness :
    read_data [none] = .ok ([], 0, 1) ∧
    initial_filter [[(0:ℝ), 0, 1], [1, 2, 1]] = .ok [[(0:ℝ), 0, 1], [1, 2, 1]] ∧
    ([[(0:ℝ), 0, 1], [1, 2, 1]] : ZData).Sorted energyLe ∧
    (([] : ZData).Sorted energyLe ∧
      ([[(0:ℝ), 0, 1], [1, 2, 1]] : ZData).Sublist [[(0:ℝ), 0, 1], [1, 2, 1]] ∧
      ([[(0:ℝ), 0, 1], [1, 2, 1]] : ZData).Sorted energyLe ∧
      (filter_data [[(0:ℝ), 0, 1], [1, 2, 1]] func0 [1, 1] false).1.Sublist
        [[(0:ℝ), 0, 1], [1, 2, 1]] ∧
      (filter_data [[(0:ℝ), 0, 1], [1, 2, 1]] func0 [1, 1] false).1.Sorted energyLe) := by
  have h1 : read_data [none] = .ok ([], 0, 1) := by
    simp [read_data, readAll, Bind.bind, Except.bind]
  have hs : ([[(0:ℝ), 0, 1], [1, 2, 1]] : ZData).Sorted energyLe := by
    simp [List.sorted_cons, energyLe]
  exact ⟨h1, initial_filter_D02, hs,
    c9_sorted_pipeline [none] [] 0 1 h1 _ _ initial_filter_D02 hs _ func0 [1, 1] false hs⟩

/-- Deleting a skipped line from a file does not change what `readFile`
produces: skipping is not fatal. -/
theorem readFile_skip (l : Line) (hskip : parseLine l = .ok none) :
    ∀ pre post : List Line, readFile (pre ++ l :: post) = readFile (pre ++ post)
  | [], post => by
    rw [List.nil_append, List.nil_append, readFile, hskip]
    simp [Bind.bind, Except.bind]
  | p :: pre, post => by
    simp only [List.cons_append]
    rw [readFile, readFile]
    rw [readFile_skip l hskip pre post]
/-- A line whose parse raises an uncaught IndexError aborts the whole
file read, whatever lines precede (as long as they do not themselves
raise) or follow it. -/
theorem readFile_abort (l : Line) (herr : parseLine l = .error .indexError) :
    ∀ pre post : List Line, (∀ x ∈ pre, ∃ o, parseLine x = .ok o) →
      readFile (pre ++ l :: post) = .error .indexError
  | [], post, _ => by
    rw [List.nil_append, readFile, herr]
    simp [Bind.bind, Except.bind]
  | p :: pre, post, hpre => by
    obtain ⟨o, ho⟩ := hpre p (by simp)
    simp only [List.cons_append]
    rw [readFile, ho]
    have hrest := readFile_abort l herr pre post (fun x hx => hpre x (by simp [hx]))
    cases o
    · simp only [Bind.bind, Except.bind]
      exact hrest
    · simp only [Bind.bind, Except.bind]
      rw [hrest]

/-- C3 amended: a line containing the missing-value marker, a line with
an unparseable field, and a line with at least three parsed fields that
violates the sign bounds are each discarded without aborting — removing
such a line from a file leaves the import result unchanged; but a line
whose fields all parse as floats and number fewer than three raises an
uncaught IndexError at the `line[2]` bound check and aborts the whole
file read, so discarding a malformed line is not always non-fatal. -/
theorem c3_line_discard_and_abort :
    (∀ (pre post : List Line) (l : Line), parseLine l = .ok none →
      readFile (pre ++ l :: post) = readFile (pre ++ post)) ∧
    (∀ l : Line, l.hasNan = true → parseLine l = .ok none) ∧
    (∀ l : Line, l.hasNan = false → parseFields l.fields = none → parseLine l = .ok none) ∧
    (∀ (l : Line) (vals : List ℝ), l.hasNan = false → parseFields l.fields = some vals →
      3 ≤ vals.length →
      (vals.getD 2 0 ≤ 0 ∨ vals.getD 1 0 < 0 ∨ vals.getD 0 0 < 0) →
      parseLine l = .ok none) ∧
    (∀ (l : Line) (vals : List ℝ), l.hasNan = false → parseFields l.fields = some vals →
      vals.length < 3 → parseLine l = .error .indexError) ∧
    (∀ (pre post : List Line) (l : Line), parseLine l = .error .indexError →
      (∀ x ∈ pre, ∃ o, parseLine x = .ok o) →
      readFile (pre ++ l :: post) = .error .indexError) := by
  refine ⟨fun pre post l h => readFile_skip l h pre post, ?_, ?_, ?_, ?_,
    fun pre post l h hpre => readFile_abort l h pre post hpre⟩
  · intro l h
    rw [parseLine, if_pos (by rw [h])]
  · intro l h hf
    simp [parseLine, h, hf]
  · intro l vals h hf hlen hviol
    simp [parseLine, h, hf, show ¬vals.length < 3 by omega]
    intro h2 h1
    simp only [List.getD_eq_getElem?_getD] at hviol
    rcases hviol with hv | hv | hv
    · linarith
    · linarith
    · exact hv
  · intro l vals h hf hlen
    simp [parseLine, h, hf, hlen]

/-- C3 witness: concrete instances of each discard reason leave the
file read unchanged, and a concrete two-numeric-field line aborts it. -/
theorem c3_witness :
    readFile [⟨true, []⟩] = readFile [] ∧
    parseLine ⟨true, []⟩ = .ok none ∧
    parseLine ⟨false, [none, some 1, some 1]⟩ = .ok none ∧
    parseLine ⟨false, [some 5, some 5, some 0]⟩ = .ok none ∧
    parseLine ⟨false, [some 1, some 2]⟩ = .error .indexError ∧
    readFile [⟨false, [some 10, some 5, some 1]⟩, ⟨false, [some 1, some 2]⟩] =
      .error .indexError := by
  obtain ⟨hskip, hnan, hbadfield, hbounds, hshort, habort⟩ := c3_line_discard_and_abort
  have h1 : parseLine ⟨true, []⟩ = .ok none := hnan ⟨true, []⟩ rfl
  have h2 : parseLine ⟨false, [none, some 1, some 1]⟩ = .ok none := by
    refine hbadfield _ rfl ?_
    rfl
  have h3 : parseLine ⟨false, [some 5, some 5, some 0]⟩ = .ok none := by
    refine hbounds _ [5, 5, 0] rfl ?_ (by simp) ?_
    · rfl
    · left
      simp [List.getD]
  have h4 : parseLine ⟨false, [some 1, some 2]⟩ = .error .indexError := by
    refine hshort _ [1, 2] rfl ?_ (by simp)
    rfl
  have h5 : parseLine ⟨false, [some 10, some 5, some 1]⟩ = .ok (some [10, 5, 1]) := by
    norm_num [parseLine, parseFields, List.getD]
  refine ⟨hskip [] [] _ h1, h1, h2, h3, h4, ?_⟩
  exact habort [⟨false, [some 10, some 5, some 1]⟩] [] _ h4
    (fun x hx => by simp at hx; subst hx; exact ⟨_, h5⟩)

/-- C3 counterexample: a file whose first line is the two-numeric-field
line `1,2` aborts the whole import with an IndexError instead of being
discarded, even though a fully valid line follows it. -/
theorem c3_counterexample :
    read_data [some [⟨false, [some 1, some 2]⟩, ⟨false, [some 10, some 5, some 1]⟩]] =
      .error .indexError := by
  have h4 : parseLine ⟨false, [some 1, some 2]⟩ = .error .indexError := by
    norm_num [parseLine, parseFields]
  rw [read_data, readAll]
  rw [show ([⟨false, [some 1, some 2]⟩, ⟨false, [some 10, some 5, some 1]⟩] : List Line) =
    [] ++ (⟨false, [some 1, some 2]⟩ : Line) :: [⟨false, [some 10, some 5, some 1]⟩] from rfl]
  rw [readFile_abort _ h4 [] _ (by simp)]
  simp [Bind.bind, Except.bind]

end ZBoson
